import Mathlib

/-!
# Verification of the Handsome-tracker task bot

Shallow embedding of the temporal-expression handling, per-chat scheduler,
calendar mutation and settings-storage code of the repository, together with
theorems settling the specification claims.

Conventions:
* instants are minutes since the Unix epoch, as `Int`;
* a timezone is modelled by its offset from UTC in minutes (for the pure
  extractor) or by an offset function `Int → Int` (tz-database semantics,
  for the digest scheduler);
* fallible operations return `Except`/`Option`.
-/

namespace Tracker

/-! ## Civil calendar arithmetic (proleptic Gregorian)

Helpers mirroring what Python's `datetime` provides to the code:
conversion between (year, month, day, hour, minute) and absolute minutes.
-/

def isLeap (y : Int) : Bool :=
  (y % 4 == 0 && y % 100 != 0) || (y % 400 == 0)

def daysInMonth (y : Int) (m : Nat) : Nat :=
  if m = 1 then 31
  else if m = 2 then (if isLeap y then 29 else 28)
  else if m = 3 then 31
  else if m = 4 then 30
  else if m = 5 then 31
  else if m = 6 then 30
  else if m = 7 then 31
  else if m = 8 then 31
  else if m = 9 then 30
  else if m = 10 then 31
  else if m = 11 then 30
  else 31

/-- Days since the Unix epoch of a civil date (Hinnant's algorithm).  All
intermediate divisions act on non-negative operands, so Euclidean division
matches the C semantics. -/
def daysFromCivil (y : Int) (m d : Nat) : Int :=
  let y' : Int := if m ≤ 2 then y - 1 else y
  let era : Int := (if 0 ≤ y' then y' else y' - 399).ediv 400
  let yoe : Int := y' - era * 400
  let mp : Int := if 2 < m then (m : Int) - 3 else (m : Int) + 9
  let doy : Int := (153 * mp + 2).ediv 5 + d - 1
  let doe : Int := yoe * 365 + yoe.ediv 4 - yoe.ediv 100 + doy
  era * 146097 + doe - 719468

/-- Civil year of a day count since the epoch (inverse of `daysFromCivil`). -/
def yearOfDays (days : Int) : Int :=
  let z : Int := days + 719468
  let era : Int := (if 0 ≤ z then z else z - 146096).ediv 146097
  let doe : Int := z - era * 146097
  let yoe : Int := (doe - doe.ediv 1460 + doe.ediv 36524 - doe.ediv 146096).ediv 365
  let y : Int := yoe + era * 400
  let doy : Int := doe - (365 * yoe + yoe.ediv 4 - yoe.ediv 100)
  let mp : Int := (5 * doy + 2).ediv 153
  let m : Int := if mp < 10 then mp + 3 else mp - 9
  if m ≤ 2 then y + 1 else y

/-- Absolute minute of a civil date-time. -/
def civilMinutes (y : Int) (mo d hh mi : Nat) : Int :=
  daysFromCivil y mo d * 1440 + hh * 60 + mi

/-- The civil year in which a local instant (minutes) falls. -/
def yearOfLocal (tLocal : Int) : Int :=
  yearOfDays (tLocal.ediv 1440)

/-! ## Temporal Expression Extractor

Modelled from the spec: the extractor `parse_task_input` (spec §4.1,
contract extract(text, chat_timezone, now) → (due_instant_utc,
residual_text, all_day) | NoMatch | raises InvalidDateTime) is not present
under `src/` — only its unit test `src/test_strict_parse.py` (which imports
it from `bot`) remains.  The model follows the spec's ordered strategies:
(1) explicit combined numeric date DD[./]MM[[./]YY[YY]] adjacent to HH:MM
in either order, (2) natural-language day-number + month-name match,
(3) strict bare fallback (lone date ⇒ all_day 23:59 local; lone time ⇒
today if not yet passed else tomorrow), (4) distinguished no-match.
Numeric validation (day∈[1,31], month∈[1,12], hour∈[0,23], minute∈[0,59],
calendar legality) raises InvalidDateTime and never falls through.
Year inference: omitted year defaults to the current year; an instant more
than one minute in the past rolls forward exactly one year (date-bearing)
or one day (bare time).  Residual text drops the matched span, strips
leading/trailing connective words, and substitutes the "untitled"
placeholder when empty (punctuation trimming, which no claim exercises, is
not modelled). -/

/-- Split a character list at every occurrence of the separator. -/
def splitOnChar (c : Char) : List Char → List (List Char)
  | [] => [[]]
  | x :: xs =>
    match splitOnChar c xs with
    | r :: rs => if x = c then [] :: r :: rs else (x :: r) :: rs
    | [] => [[]]

def tokenize (text : String) : List (List Char) :=
  (splitOnChar ' ' text.data).filter (fun l => !l.isEmpty)

def isDigitCh (c : Char) : Bool := '0' ≤ c && c ≤ '9'

def isDigitList (l : List Char) : Bool := !l.isEmpty && l.all isDigitCh

def digitsToNat (l : List Char) : Nat :=
  l.foldl (fun acc c => acc * 10 + (c.toNat - 48)) 0

inductive Token where
  | time (hh mi : Nat)
  | date (d mo : Nat) (yr : Option Int)
  | num (n : Nat)
  | word (w : List Char)
  deriving Repr, DecidableEq, Inhabited

/-- Two-digit years YY expand to 20YY, per the spec's DD[./]MM[[./]YY[YY]]. -/
def expandYear (n : Nat) : Int :=
  if n < 100 then 2000 + n else n

def classifyDateParts : List (List Char) → Option Token
  | [a, b] =>
      if isDigitList a && isDigitList b then
        some (.date (digitsToNat a) (digitsToNat b) none)
      else none
  | [a, b, c] =>
      if isDigitList a && isDigitList b && isDigitList c then
        some (.date (digitsToNat a) (digitsToNat b) (some (expandYear (digitsToNat c))))
      else none
  | _ => none

def classifyNonTime (l : List Char) : Token :=
  match classifyDateParts (splitOnChar '.' l) with
  | some t => t
  | none =>
    match classifyDateParts (splitOnChar '/' l) with
    | some t => t
    | none => if isDigitList l then .num (digitsToNat l) else .word l

def classify (l : List Char) : Token :=
  match splitOnChar ':' l with
  | [a, b] =>
      if isDigitList a && isDigitList b then .time (digitsToNat a) (digitsToNat b)
      else classifyNonTime l
  | _ => classifyNonTime l

def monthNames : List (List Char × Nat) :=
  [("января".data, 1), ("февраля".data, 2), ("марта".data, 3), ("апреля".data, 4),
   ("мая".data, 5), ("июня".data, 6), ("июля".data, 7), ("августа".data, 8),
   ("сентября".data, 9), ("октября".data, 10), ("ноября".data, 11), ("декабря".data, 12),
   ("january".data, 1), ("february".data, 2), ("march".data, 3), ("april".data, 4),
   ("may".data, 5), ("june".data, 6), ("july".data, 7), ("august".data, 8),
   ("september".data, 9), ("october".data, 10), ("november".data, 11),
   ("december".data, 12)]

def lowerAscii (c : Char) : Char :=
  if 65 ≤ c.toNat && c.toNat ≤ 90 then Char.ofNat (c.toNat + 32) else c

def monthOfWord (w : List Char) : Option Nat :=
  (monthNames.find? (fun p => p.1 == w.map lowerAscii)).map (·.2)

def monthTok : Token → Option Nat
  | .word w => monthOfWord w
  | _ => none

def isTimeTok : Token → Bool
  | .time _ _ => true
  | _ => false

def isDateTok : Token → Bool
  | .date _ _ _ => true
  | _ => false

def validTime (hh mi : Nat) : Bool := hh ≤ 23 && mi ≤ 59

def validDate (y : Int) (d mo : Nat) : Bool :=
  1 ≤ d && d ≤ 31 && 1 ≤ mo && mo ≤ 12 && d ≤ daysInMonth y mo

/-- A syntactically present numeric date or time component that is
out-of-range or calendar-impossible. -/
def invalidTemporalToken (curYear : Int) : Token → Bool
  | .time hh mi => !validTime hh mi
  | .date d mo yr => !validDate (yr.getD curYear) d mo
  | _ => false

/-- Strategy 1: an explicit numeric date adjacent to an HH:MM time, in
either order; yields the date and time components plus the residual span. -/
def scan1 : List (List Char × Token) →
    Option ((Nat × Nat × Option Int) × (Nat × Nat) × List (List Char))
  | [] => none
  | [_] => none
  | p :: q :: rest =>
    match p.2, q.2 with
    | .date d mo yr, .time hh mi => some ((d, mo, yr), (hh, mi), rest.map (·.1))
    | .time hh mi, .date d mo yr => some ((d, mo, yr), (hh, mi), rest.map (·.1))
    | _, _ => (scan1 (q :: rest)).map (fun r => (r.1, r.2.1, p.1 :: r.2.2))

/-- Strategy 2: a day number followed by a month name. -/
def scan2 : List (List Char × Token) → Option ((Nat × Nat) × List (List Char))
  | [] => none
  | [_] => none
  | p :: q :: rest =>
    match p.2, monthTok q.2 with
    | .num d, some mo => some ((d, mo), rest.map (·.1))
    | _, _ => (scan2 (q :: rest)).map (fun r => (r.1, p.1 :: r.2))

def connectives : List (List Char) :=
  ["at".data, "on".data, "by".data, "в".data, "во".data, "к".data, "на".data]

def stripConnectives (l : List (List Char)) : List (List Char) :=
  ((l.dropWhile (fun w => connectives.contains w)).reverse.dropWhile
    (fun w => connectives.contains w)).reverse

def joinPieces : List (List Char) → List Char
  | [] => []
  | [x] => x
  | x :: y :: ys => x ++ (' ' :: joinPieces (y :: ys))

def joinResidual (l : List (List Char)) : String :=
  let l' := stripConnectives l
  if l'.isEmpty then "untitled" else ⟨joinPieces l'⟩

inductive ParseError where
  | invalidDateTime
  deriving Repr, DecidableEq

structure ParsedTask where
  dueUtc : Int
  residual : String
  allDay : Bool
  deriving Repr, DecidableEq

inductive ParseResult where
  | ok (t : ParsedTask)
  | noMatch
  deriving Repr, DecidableEq

/-- Year inference applied to a date-bearing local instant: the omitted
year defaults to the current one; an instant more than one minute in the
past rolls forward exactly one year. -/
def resolveDatePath (curYear nowLocal : Int) (build : Int → Int) : Int :=
  let t0 := build curYear
  if t0 < nowLocal - 1 then build (curYear + 1) else t0

/-- Outcome of the explicit combined (date adjacent to time) strategy. -/
def strategy1Result (curYear nowLocal tzOff : Int)
    (r : (Nat × Nat × Option Int) × (Nat × Nat) × List (List Char)) : ParsedTask :=
  match r with
  | ((d, mo, yr), (hh, mi), res) =>
      let dueLocal :=
        match yr with
        | some y => civilMinutes y mo d hh mi
        | none => resolveDatePath curYear nowLocal (fun y => civilMinutes y mo d hh mi)
      ⟨dueLocal - tzOff, joinResidual res, false⟩

/-- Outcome of the day-number + month-name strategy (all-day, 23:59). -/
def strategy2Result (curYear nowLocal tzOff : Int) (d mo : Nat)
    (res : List (List Char)) : Except ParseError ParseResult :=
  if !(1 ≤ d && d ≤ daysInMonth curYear mo) then
    .error .invalidDateTime
  else
    .ok (.ok ⟨resolveDatePath curYear nowLocal (fun y => civilMinutes y mo d 23 59) - tzOff,
              joinResidual res, true⟩)

/-- Strict bare fallback: a lone date (all-day, 23:59 local) or a lone time
(today if not yet passed else tomorrow). -/
def strategy3 (toks dateToks timeToks : List (List Char × Token))
    (curYear nowLocal tzOff : Int) : Except ParseError ParseResult :=
  match dateToks, timeToks with
  | [(_, .date d mo yr)], [] =>
      let res := (toks.filter (fun p => !isDateTok p.2)).map (·.1)
      let dueLocal :=
        match yr with
        | some y => civilMinutes y mo d 23 59
        | none => resolveDatePath curYear nowLocal (fun y => civilMinutes y mo d 23 59)
      .ok (.ok ⟨dueLocal - tzOff, joinResidual res, true⟩)
  | [], [(_, .time hh mi)] =>
      let res := (toks.filter (fun p => !isTimeTok p.2)).map (·.1)
      let cand := nowLocal.ediv 1440 * 1440 + hh * 60 + mi
      let dueLocal := if nowLocal < cand then cand else cand + 1440
      .ok (.ok ⟨dueLocal - tzOff, joinResidual res, false⟩)
  | _, _ => .ok .noMatch

def parseTokens (toks : List (List Char × Token)) (tzOff nowUtc : Int) :
    Except ParseError ParseResult :=
  let nowLocal := nowUtc + tzOff
  let curYear := yearOfLocal nowLocal
  if toks.any (fun p => invalidTemporalToken curYear p.2) then
    .error .invalidDateTime
  else
    match scan1 toks with
    | some r => .ok (.ok (strategy1Result curYear nowLocal tzOff r))
    | none =>
      match scan2 toks with
      | some ((d, mo), res) => strategy2Result curYear nowLocal tzOff d mo res
      | none =>
          strategy3 toks (toks.filter (fun p => isDateTok p.2))
            (toks.filter (fun p => isTimeTok p.2)) curYear nowLocal tzOff

def parse_task_input (text : String) (tzOff nowUtc : Int) :
    Except ParseError ParseResult :=
  parseTokens ((tokenize text).map (fun s => (s, classify s))) tzOff nowUtc

/-! ## Reminder scheduler (`schedule`)

Modelled from the spec: the Reminder Scheduler's `schedule(chat, task_id,
due_instant_utc)` operation described in spec §4.2 is not present under
`src/` (src/services/scheduler_service.py only registers the per-minute
digest cron).  Faithful to the spec's words: no-op if chat reminders are
disabled, lead_minutes ≤ 0, or the task is all-day; otherwise
fire_instant = due_instant − lead_minutes, no-op if fire_instant ≤ now;
else cancel any job under the key (chat, task) and register the new
one-shot timer under that key. -/
def schedule (jobs : List ((Int × Int) × Int)) (chat taskId : Int)
    (remindersEnabled : Bool) (leadMinutes : Int) (allDay : Bool)
    (dueUtc nowUtc : Int) : List ((Int × Int) × Int) :=
  if !remindersEnabled || leadMinutes ≤ 0 || allDay then jobs
  else
    let fireInstant := dueUtc - leadMinutes
    if fireInstant ≤ nowUtc then jobs
    else ((chat, taskId), fireInstant) :: jobs.filter (fun j => j.1 ≠ (chat, taskId))

/-! ## Daily digest firing check (`check_and_send_briefings`)

Embedding of the per-user check in
src/services/scheduler_service.py lines 366-384: the per-minute cron job
computes the user's local time (`now_utc.astimezone(user_tz)`), formats it
as "%H:%M", and sends the morning briefing exactly when that string equals
the stored `morning_time` (and likewise `evening_time`).  A timezone is
modelled tz-database style as a function from UTC instant (minutes) to
offset (minutes), so DST transitions change the offset over time. -/

/-- Two zero-padded decimal digits, as `%H`/`%M` renders an hour/minute. -/
def pad2 (n : Nat) : List Char :=
  [Char.ofNat (48 + n / 10), Char.ofNat (48 + n % 10)]

/-- The "%H:%M" rendering of an instant's minute-of-day. -/
def fmtHHMM (t : Int) : String :=
  let m := (t % 1440).toNat
  ⟨pad2 (m / 60) ++ ':' :: pad2 (m % 60)⟩

def localMinutes (off : Int → Int) (u : Int) : Int := u + off u

/-- The `if morning_time and current_time_str == morning_time` condition of
`check_and_send_briefings`. -/
def morningFires (off : Int → Int) (morningTime : String) (u : Int) : Bool :=
  (!decide (morningTime = "")) && decide (fmtHHMM (localMinutes off u) = morningTime)

/-! ## Local-day event query (`get_today_events`)

Embedding of src/services/scheduler_service.py lines 22-75: the function
requests the chat-local day window from the Google Calendar API with
orderBy='startTime' and formats the returned items IN THE ORDER RECEIVED —
it performs no reordering of its own.  A raw item's start is either a
`dateTime` (timed, an instant) or a `date` (all-day, a day index); the
upstream ordering key of an all-day event is the local midnight of its
start date. -/

inductive StartField where
  | dateTime (t : Int)
  | date (d : Int)
  deriving Repr, DecidableEq

structure RawEvent where
  id : String
  summary : String
  start : StartField
  description : String
  deriving Repr, DecidableEq

structure FEvent where
  id : String
  summary : String
  start_time : StartField
  description : String
  deriving Repr, DecidableEq

def formatEvent (e : RawEvent) : FEvent :=
  ⟨e.id, e.summary, e.start, e.description⟩

def get_today_events (items : List RawEvent) : List FEvent :=
  items.map formatEvent

def FEvent.isAllDay (e : FEvent) : Bool :=
  match e.start_time with
  | .date _ => true
  | .dateTime _ => false

/-- Upstream sort key used by orderBy='startTime': a timed event sorts by
its instant, an all-day event by the local midnight of its date. -/
def startKey (midnightUtc : Int → Int) : StartField → Int
  | .dateTime t => t
  | .date d => midnightUtc d

/-- All all-day entries precede all timed entries. -/
def allDayFirst (l : List FEvent) : Prop :=
  List.Pairwise (fun a b => ¬(a.isAllDay = false ∧ b.isAllDay = true)) l

/-- Timed entries appear in ascending order of their instants. -/
def timedAscending (l : List FEvent) : Prop :=
  List.Pairwise
    (fun a b => ∀ ta tb, a.start_time = .dateTime ta → b.start_time = .dateTime tb → ta ≤ tb) l

/-! ## Failure isolation in the digest pass (`check_and_send_briefings`)

Embedding of the control flow of src/services/scheduler_service.py
lines 344-391: fetching the settings rows may fail (outer try/except —
the pass then does nothing); each user's handling may fail (inner
try/except with `continue` — the loop moves on to the next user).  The
handler result models everything done for one chat (store/calendar query
plus notification sends), returning the messages sent or a caught error. -/

def briefingsLoop (handler : Int → Except String (List String)) :
    List Int → List String
  | [] => []
  | c :: rest =>
    match handler c with
    | .ok msgs => msgs ++ briefingsLoop handler rest
    | .error _ => briefingsLoop handler rest

def check_and_send_briefings (fetchUsers : Except String (List Int))
    (handler : Int → Except String (List String)) : List String :=
  match fetchUsers with
  | .error _ => []
  | .ok users => briefingsLoop handler users

/-! ## Calendar done/cancel marking (`calendar_service.py`)

Embedding of `mark_event_done` (lines 271-319) and `cancel_event`
(lines 555-597).  The calendar is an association of event ids to the
optional summary field; each operation re-reads the event, returns True
immediately when the summary already carries its prefix, and otherwise
issues exactly one update prepending the prefix.  A missing event models
the HttpError path (returns False).  The third component of the result
records the update calls issued. -/

def Cal := List (String × Option String)

def getEvent (cal : Cal) (eid : String) : Option (Option String) :=
  (cal.find? (fun p => decide (p.1 = eid))).map (·.2)

def setSummary (cal : Cal) (eid : String) (s : String) : Cal :=
  cal.map (fun p => if p.1 = eid then (p.1, some s) else p)

def strStartsWith (pre s : String) : Bool :=
  pre.data.isPrefixOf s.data

def strDrop (s : String) (n : Nat) : String :=
  ⟨s.data.drop n⟩

def mark_event_done (cal : Cal) (eid : String) (eventTitle : String) :
    Bool × Cal × List (String × String) :=
  match getEvent cal eid with
  | none => (false, cal, [])
  | some summaryField =>
      let current := summaryField.getD eventTitle
      if strStartsWith "✅ " current then (true, cal, [])
      else
        let clean := if strStartsWith "✅ " current then strDrop current 2 else current
        let newSummary := "✅ " ++ clean
        (true, setSummary cal eid newSummary, [(eid, newSummary)])

def cancel_event (cal : Cal) (eid : String) : Bool × Cal × List (String × String) :=
  match getEvent cal eid with
  | none => (false, cal, [])
  | some summaryField =>
      let current := summaryField.getD "Task"
      if strStartsWith "❌ " current then (true, cal, [])
      else
        let newSummary := "❌ " ++ current
        (true, setSummary cal eid newSummary, [(eid, newSummary)])

/-! ## Per-chat settings storage (`bot.py`)

Embedding of the sqlite `settings` table and the upsert statements of
`set_user_timezone`, `set_user_name`, `set_morning_time`,
`set_evening_time` (src/bot.py lines 276-337).  sqlite semantics: the
`INSERT ... ON CONFLICT(chat_id) DO UPDATE SET col=excluded.col` updates
only the named column when the row exists; otherwise it inserts the listed
values, leaving unlisted columns NULL, and the
`COALESCE((SELECT onboard_done ...), 0)` evaluates to 0 for a fresh row. -/

structure SRow where
  tz : Option String
  user_name : Option String
  morning_time : String
  evening_time : String
  onboard_done : Int
  deriving Repr, DecidableEq

def SettingsDB := Int → Option SRow

def set_user_timezone (db : SettingsDB) (chatId : Int) (tzname : String) : SettingsDB :=
  match db chatId with
  | some r => fun c => if c = chatId then some { r with tz := some tzname } else db c
  | none => fun c =>
      if c = chatId then
        some ⟨some tzname, none, "09:00", "21:00", 0⟩
      else db c

def set_user_name (db : SettingsDB) (chatId : Int) (name : String) : SettingsDB :=
  match db chatId with
  | some r => fun c => if c = chatId then some { r with user_name := some name } else db c
  | none => fun c =>
      if c = chatId then
        some ⟨none, some name, "09:00", "21:00", 0⟩
      else db c

def set_morning_time (db : SettingsDB) (chatId : Int) (timeStr : String) : SettingsDB :=
  match db chatId with
  | some r => fun c => if c = chatId then some { r with morning_time := timeStr } else db c
  | none => fun c =>
      if c = chatId then
        some ⟨none, none, timeStr, "21:00", 0⟩
      else db c

def set_evening_time (db : SettingsDB) (chatId : Int) (timeStr : String) : SettingsDB :=
  match db chatId with
  | some r => fun c => if c = chatId then some { r with evening_time := timeStr } else db c
  | none => fun c =>
      if c = chatId then
        some ⟨none, none, "09:00", timeStr, 0⟩
      else db c

/-! ## Theorems -/

/-- Claim C2: `schedule(chat, task_id, due)` is a no-op when chat reminders
are disabled, when lead_minutes ≤ 0, or when the task is all-day; otherwise
it computes fire_instant = due − lead and is a no-op when
fire_instant ≤ now (else it replaces the job under the (chat, task) key);
in particular with reminders enabled, lead = 30 and a task due in
20 minutes the call is a no-op. -/
theorem schedule_reminder_noop_rules :
    (∀ (jobs : List ((Int × Int) × Int)) chat task lead allDay due now,
        schedule jobs chat task false lead allDay due now = jobs) ∧
    (∀ (jobs : List ((Int × Int) × Int)) chat task enabled lead allDay due now,
        lead ≤ 0 → schedule jobs chat task enabled lead allDay due now = jobs) ∧
    (∀ (jobs : List ((Int × Int) × Int)) chat task enabled lead due now,
        schedule jobs chat task enabled lead true due now = jobs) ∧
    (∀ (jobs : List ((Int × Int) × Int)) chat task lead due now,
        0 < lead → due - lead ≤ now →
        schedule jobs chat task true lead false due now = jobs) ∧
    (∀ (jobs : List ((Int × Int) × Int)) chat task lead due now,
        0 < lead → now < due - lead →
        schedule jobs chat task true lead false due now =
          ((chat, task), due - lead) :: jobs.filter (fun j => j.1 ≠ (chat, task))) ∧
    (∀ (jobs : List ((Int × Int) × Int)) chat task now,
        schedule jobs chat task true 30 false (now + 20) now = jobs) := by
  refine ⟨?_, ?_, ?_, ?_, ?_, ?_⟩
  · intro jobs chat task lead allDay due now
    simp [schedule]
  · intro jobs chat task enabled lead allDay due now h
    simp [schedule, h]
  · intro jobs chat task enabled lead due now
    simp [schedule]
  · intro jobs chat task lead due now hlead hfire
    simp [schedule, not_le.mpr hlead, hfire]
  · intro jobs chat task lead due now hlead hfire
    simp [schedule, not_le.mpr hlead, not_le.mpr hfire]
  · intro jobs chat task now
    have h : now + 20 - 30 ≤ now := by omega
    simp [schedule, h]

/-- Claim C2 witness: concrete instance of the lead=30, due-in-20-minutes
scenario (and of the disabled/all-day rules). -/
theorem schedule_reminder_noop_rules_witness :
    schedule [((7, 7), 0)] 1 2 true 30 false 1020 1000 = [((7, 7), 0)] ∧
    schedule [] 1 2 false 5 false 5000 0 = ([] : List ((Int × Int) × Int)) ∧
    schedule [] 1 2 true 5 true 5000 0 = ([] : List ((Int × Int) × Int)) := by
  refine ⟨?_, ?_, ?_⟩
  · exact schedule_reminder_noop_rules.2.2.2.2.2 [((7, 7), 0)] 1 2 1000
  · exact schedule_reminder_noop_rules.1 [] 1 2 5 false 5000 0
  · exact schedule_reminder_noop_rules.2.2.1 [] 1 2 true 5 5000 0

/-- Claim C10: each settings setter updates only its own column for an
existing row (set_morning_time leaves evening_time, tz, user_name and
onboard_done unchanged; set_evening_time leaves morning_time unchanged;
set_user_timezone and set_user_name keep onboard_done) and leaves other
chats' rows untouched; for a missing row set_user_timezone/set_user_name
insert onboard_done = 0. -/
theorem settings_setters_frame :
    (∀ (db : SettingsDB) chat t r, db chat = some r →
        set_morning_time db chat t chat = some { r with morning_time := t } ∧
        ∀ c, c ≠ chat → set_morning_time db chat t c = db c) ∧
    (∀ (db : SettingsDB) chat t r, db chat = some r →
        set_evening_time db chat t chat = some { r with evening_time := t } ∧
        ∀ c, c ≠ chat → set_evening_time db chat t c = db c) ∧
    (∀ (db : SettingsDB) chat z r, db chat = some r →
        set_user_timezone db chat z chat = some { r with tz := some z } ∧
        ∀ c, c ≠ chat → set_user_timezone db chat z c = db c) ∧
    (∀ (db : SettingsDB) chat n r, db chat = some r →
        set_user_name db chat n chat = some { r with user_name := some n } ∧
        ∀ c, c ≠ chat → set_user_name db chat n c = db c) ∧
    (∀ (db : SettingsDB) chat z, db chat = none →
        set_user_timezone db chat z chat = some ⟨some z, none, "09:00", "21:00", 0⟩) ∧
    (∀ (db : SettingsDB) chat n, db chat = none →
        set_user_name db chat n chat = some ⟨none, some n, "09:00", "21:00", 0⟩) := by
  refine ⟨?_, ?_, ?_, ?_, ?_, ?_⟩
  · intro db chat t r h
    constructor
    · simp [set_morning_time, h]
    · intro c hc
      simp [set_morning_time, h, hc]
  · intro db chat t r h
    constructor
    · simp [set_evening_time, h]
    · intro c hc
      simp [set_evening_time, h, hc]
  · intro db chat z r h
    constructor
    · simp [set_user_timezone, h]
    · intro c hc
      simp [set_user_timezone, h, hc]
  · intro db chat n r h
    constructor
    · simp [set_user_name, h]
    · intro c hc
      simp [set_user_name, h, hc]
  · intro db chat z h
    simp [set_user_timezone, h]
  · intro db chat n h
    simp [set_user_name, h]

/-- Claim C10 witness: concrete rows showing the frame conditions. -/
theorem settings_setters_frame_witness :
    (set_morning_time (fun c => if c = 1 then some ⟨some "UTC", some "Ann", "09:00", "21:00", 1⟩ else none)
        1 "08:30" 1 = some ⟨some "UTC", some "Ann", "08:30", "21:00", 1⟩) ∧
    (set_user_timezone (fun _ => none) 5 "Europe/Rome" 5 =
      some ⟨some "Europe/Rome", none, "09:00", "21:00", 0⟩) := by
  constructor
  · exact (settings_setters_frame.1
      (fun c => if c = 1 then some ⟨some "UTC", some "Ann", "09:00", "21:00", 1⟩ else none)
      1 "08:30" ⟨some "UTC", some "Ann", "09:00", "21:00", 1⟩ rfl).1
  · exact settings_setters_frame.2.2.2.2.1 (fun _ => none) 5 "Europe/Rome" rfl

/-- Claim C8: in a scheduler pass, a failure while handling one chat
(store/calendar query or notification send, caught and logged at the call
site) does not prevent any other chat of the same pass from being handled:
every message of every successfully handled chat still appears in the
output of the pass, whatever the other handlers do. -/
theorem digest_failure_isolated (fetchUsers : Except String (List Int))
    (handler : Int → Except String (List String)) (users : List Int)
    (c : Int) (msgs : List String) (m : String)
    (hfetch : fetchUsers = .ok users) (hc : c ∈ users)
    (hhandler : handler c = .ok msgs) (hm : m ∈ msgs) :
    m ∈ check_and_send_briefings fetchUsers handler := by
  subst hfetch
  unfold check_and_send_briefings
  induction users with
  | nil => cases hc
  | cons u rest ih =>
    rcases List.mem_cons.mp hc with h | h
    · subst h
      simp [briefingsLoop, hhandler]
      exact Or.inl hm
    · have hrest := ih h
      unfold briefingsLoop
      cases hu : handler u with
      | ok ms => exact List.mem_append_right _ hrest
      | error e => exact hrest

/-- Claim C8 witness: chats 1 and 3 fail, chat 2 still receives its
digest. -/
theorem digest_failure_isolated_witness :
    "digest2" ∈ check_and_send_briefings (.ok [1, 2, 3])
      (fun c => if c = 2 then .ok ["digest2"] else .error "boom") := by
  exact digest_failure_isolated (.ok [1, 2, 3])
    (fun c => if c = 2 then .ok ["digest2"] else .error "boom")
    [1, 2, 3] 2 ["digest2"] "digest2" rfl (by decide) rfl (by decide)

theorem getEvent_setSummary (cal : Cal) (eid : String) (s : String)
    (o : Option String) (h : getEvent cal eid = some o) :
    getEvent (setSummary cal eid s) eid = some (some s) := by
  induction cal with
  | nil => simp [getEvent] at h
  | cons p rest ih =>
    by_cases hp : p.1 = eid
    · simp [getEvent, setSummary, List.find?, hp]
    · have h' : getEvent rest eid = some o := by
        simpa [getEvent, List.find?_cons, hp] using h
      simpa [getEvent, setSummary, List.find?_cons, hp] using ih h'

theorem isPrefixOf_append_self (l r : List Char) : l.isPrefixOf (l ++ r) = true := by
  induction l with
  | nil => simp [List.isPrefixOf]
  | cons c cs ih => simp [List.isPrefixOf, ih]

theorem strStartsWith_append (pre rest : String) :
    strStartsWith pre (pre ++ rest) = true := by
  simp only [strStartsWith, String.data_append]
  exact isPrefixOf_append_self _ _

/-- Claim C9: `mark_event_done` and `cancel_event` are idempotent: when the
summary already carries the "✅ "/"❌ " prefix the operation returns True
with no update issued, and a second application after a first one leaves
the calendar exactly as the first left it, again issuing no update. -/
theorem mark_cancel_idempotent :
    (∀ (cal : Cal) eid title osum, getEvent cal eid = some osum →
        strStartsWith "✅ " (osum.getD title) = true →
        mark_event_done cal eid title = (true, cal, [])) ∧
    (∀ (cal : Cal) eid osum, getEvent cal eid = some osum →
        strStartsWith "❌ " (osum.getD "Task") = true →
        cancel_event cal eid = (true, cal, [])) ∧
    (∀ (cal : Cal) eid title osum, getEvent cal eid = some osum →
        mark_event_done (mark_event_done cal eid title).2.1 eid title =
          (true, (mark_event_done cal eid title).2.1, [])) ∧
    (∀ (cal : Cal) eid osum, getEvent cal eid = some osum →
        cancel_event (cancel_event cal eid).2.1 eid =
          (true, (cancel_event cal eid).2.1, [])) := by
  have markPre : ∀ (cal : Cal) eid title osum, getEvent cal eid = some osum →
      strStartsWith "✅ " (osum.getD title) = true →
      mark_event_done cal eid title = (true, cal, []) := by
    intro cal eid title osum h hpre
    simp [mark_event_done, h, hpre]
  have cancelPre : ∀ (cal : Cal) eid osum, getEvent cal eid = some osum →
      strStartsWith "❌ " (osum.getD "Task") = true →
      cancel_event cal eid = (true, cal, []) := by
    intro cal eid osum h hpre
    simp [cancel_event, h, hpre]
  refine ⟨markPre, cancelPre, ?_, ?_⟩
  · intro cal eid title osum h
    by_cases hpre : strStartsWith "✅ " (osum.getD title) = true
    · rw [markPre cal eid title osum h hpre]
      exact markPre cal eid title osum h hpre
    · have hfirst : mark_event_done cal eid title =
          (true, setSummary cal eid ("✅ " ++ osum.getD title),
           [(eid, "✅ " ++ osum.getD title)]) := by
        simp [mark_event_done, h, hpre]
      rw [hfirst]
      have h2 : getEvent (setSummary cal eid ("✅ " ++ osum.getD title)) eid =
          some (some ("✅ " ++ osum.getD title)) :=
        getEvent_setSummary cal eid _ osum h
      exact markPre _ eid title _ h2 (strStartsWith_append "✅ " (osum.getD title))
  · intro cal eid osum h
    by_cases hpre : strStartsWith "❌ " (osum.getD "Task") = true
    · rw [cancelPre cal eid osum h hpre]
      exact cancelPre cal eid osum h hpre
    · have hfirst : cancel_event cal eid =
          (true, setSummary cal eid ("❌ " ++ osum.getD "Task"),
           [(eid, "❌ " ++ osum.getD "Task")]) := by
        simp [cancel_event, h, hpre]
      rw [hfirst]
      have h2 : getEvent (setSummary cal eid ("❌ " ++ osum.getD "Task")) eid =
          some (some ("❌ " ++ osum.getD "Task")) :=
        getEvent_setSummary cal eid _ osum h
      exact cancelPre _ eid _ h2 (strStartsWith_append "❌ " (osum.getD "Task"))

/-- Claim C9 witness: marking a concrete event done twice keeps the summary
of the first marking and issues no second update; likewise for cancel. -/
theorem mark_cancel_idempotent_witness :
    (mark_event_done
        (mark_event_done [("e1", some "Buy milk")] "e1" "Buy milk").2.1
        "e1" "Buy milk" =
      (true, (mark_event_done [("e1", some "Buy milk")] "e1" "Buy milk").2.1, [])) ∧
    (cancel_event (cancel_event [("e2", some "Dentist")] "e2").2.1 "e2" =
      (true, (cancel_event [("e2", some "Dentist")] "e2").2.1, [])) ∧
    (mark_event_done [("e3", some "✅ Done already")] "e3" "x" =
      (true, [("e3", some "✅ Done already")], [])) := by
  refine ⟨?_, ?_, ?_⟩
  · exact mark_cancel_idempotent.2.2.1 [("e1", some "Buy milk")] "e1" "Buy milk"
      (some "Buy milk") rfl
  · exact mark_cancel_idempotent.2.2.2 [("e2", some "Dentist")] "e2"
      (some "Dentist") rfl
  · exact mark_cancel_idempotent.1 [("e3", some "✅ Done already")] "e3" "x"
      (some "✅ Done already") rfl (by decide)

theorem digitChar_inj : ∀ a, a < 10 → ∀ b, b < 10 →
    Char.ofNat (48 + a) = Char.ofNat (48 + b) → a = b := by decide

theorem pad2_inj : ∀ a, a < 100 → ∀ b, b < 100 → pad2 a = pad2 b → a = b := by
  intro a ha b hb h
  simp only [pad2, List.cons.injEq, and_true] at h
  obtain ⟨h1, h2⟩ := h
  have e1 := digitChar_inj (a / 10) (by omega) (b / 10) (by omega) h1
  have e2 := digitChar_inj (a % 10) (by omega) (b % 10) (by omega) h2
  omega

theorem pad2_length (n : Nat) : (pad2 n).length = 2 := rfl

theorem fmtHHMM_inj (s t : Int) (h : fmtHHMM s = fmtHHMM t) :
    s % 1440 = t % 1440 := by
  have hs0 : 0 ≤ s % 1440 := Int.emod_nonneg s (by norm_num)
  have hs1 : s % 1440 < 1440 := Int.emod_lt_of_pos s (by norm_num)
  have ht0 : 0 ≤ t % 1440 := Int.emod_nonneg t (by norm_num)
  have ht1 : t % 1440 < 1440 := Int.emod_lt_of_pos t (by norm_num)
  set a := (s % 1440).toNat with hadef
  set b := (t % 1440).toNat with hbdef
  have hab : a < 1440 := by omega
  have hbb : b < 1440 := by omega
  simp only [fmtHHMM] at h
  have hlist : pad2 (a / 60) ++ ':' :: pad2 (a % 60) =
      pad2 (b / 60) ++ ':' :: pad2 (b % 60) := congrArg String.data h
  have hpre : pad2 (a / 60) = pad2 (b / 60) ∧
      (':' :: pad2 (a % 60) : List Char) = ':' :: pad2 (b % 60) :=
    List.append_inj hlist (by simp [pad2_length])
  have e1 := pad2_inj (a / 60) (by omega) (b / 60) (by omega) hpre.1
  have h60 : pad2 (a % 60) = pad2 (b % 60) := by
    injection hpre.2
  have e2 := pad2_inj (a % 60) (by omega) (b % 60) (by omega) h60
  omega

theorem fmtHHMM_add_period (x : Int) : fmtHHMM (x + 1440) = fmtHHMM x := by
  unfold fmtHHMM
  have : (x + 1440) % 1440 = x % 1440 := by omega
  rw [this]

/-- Claim C3: the daily digest check fires exactly when the chat's current
local wall-clock time (UTC instant plus the timezone-database offset at
that instant) equals the configured HH:MM, and across a DST transition
(offset o1 before, o2 after) the next fire comes 1440 − (o2 − o1) minutes
of UTC later — the UTC fire instant shifts by the DST delta while the
local HH:MM stays the same. -/
theorem digest_fires_at_local_wall_clock :
    (∀ (off : Int → Int) (u : Int) (h m : Nat), h < 24 → m < 60 →
        (morningFires off (fmtHHMM (60 * h + m)) u = true ↔
          (localMinutes off u) % 1440 = 60 * h + m)) ∧
    (∀ (off : Int → Int) (mt : String) (u1 u2 o1 o2 : Int),
        off u1 = o1 → off u2 = o2 → u2 = u1 + 1440 - (o2 - o1) →
        morningFires off mt u1 = morningFires off mt u2) := by
  constructor
  · intro off u h m hh hm
    have hne : fmtHHMM (60 * h + m) ≠ "" := by
      intro habs
      have := congrArg String.data habs
      simp [fmtHHMM, pad2] at this
    constructor
    · intro hfire
      simp only [morningFires, Bool.and_eq_true, decide_eq_true_eq,
        Bool.not_eq_true', decide_eq_false_iff_not] at hfire
      have := fmtHHMM_inj _ _ hfire.2
      have hrange : ((60 * h + m : Nat) : Int) % 1440 = 60 * h + m := by
        have : ((60 * h + m : Nat) : Int) < 1440 := by push_cast; omega
        omega
      push_cast at this hrange ⊢
      omega
    · intro heq
      simp only [morningFires, Bool.and_eq_true, decide_eq_true_eq,
        Bool.not_eq_true', decide_eq_false_iff_not]
      refine ⟨hne, ?_⟩
      unfold fmtHHMM
      rw [heq]
      have : ((60 * (h : Int) + (m : Int))) % 1440 = 60 * h + m := by omega
      rw [this]
  · intro off mt u1 u2 o1 o2 h1 h2 h3
    have hloc : localMinutes off u2 = localMinutes off u1 + 1440 := by
      simp only [localMinutes, h1, h2]
      omega
    unfold morningFires
    rw [hloc, fmtHHMM_add_period]

/-- Claim C3 witness: with an offset function dropping from +120 to +60 (a
DST end), a 09:00-local digest fires at UTC minute 420 before the
transition and at UTC minute 1920 after it — 1500 minutes later, still at
09:00 local. -/
theorem digest_fires_at_local_wall_clock_witness :
    (morningFires (fun u => if u < 1000 then 120 else 60) (fmtHHMM 540) 420 = true) ∧
    (morningFires (fun u => if u < 1000 then 120 else 60) (fmtHHMM 540) 420 =
      morningFires (fun u => if u < 1000 then 120 else 60) (fmtHHMM 540) 1920) ∧
    (morningFires (fun u => if u < 1000 then 120 else 60) (fmtHHMM 540) 1920 = true) := by
  have h1 : morningFires (fun u => if u < 1000 then 120 else 60) (fmtHHMM 540) 420 = true :=
    (digest_fires_at_local_wall_clock.1 (fun u => if u < 1000 then 120 else 60)
      420 9 0 (by norm_num) (by norm_num)).mpr (by decide)
  have h2 : morningFires (fun u => if u < 1000 then 120 else 60) (fmtHHMM 540) 420 =
      morningFires (fun u => if u < 1000 then 120 else 60) (fmtHHMM 540) 1920 :=
    digest_fires_at_local_wall_clock.2 (fun u => if u < 1000 then 120 else 60)
      (fmtHHMM 540) 420 1920 120 60 (by norm_num) (by norm_num) (by norm_num)
  exact ⟨h1, h2, h2 ▸ h1⟩

/-- Claim C7 counterexample: `get_today_events` preserves the upstream
orderBy='startTime' order without reordering of its own, so a timed event
falling exactly at the local midnight that keys the all-day events can
legitimately precede an all-day event in the returned list: the claimed
ordering fails on that concrete sorted input. -/
theorem allday_first_counterexample :
    ¬ (∀ (midnightUtc : Int → Int) (dayStart : Int) (items : List RawEvent),
        List.Chain'
          (fun a b => startKey midnightUtc a.start ≤ startKey midnightUtc b.start) items →
        (∀ e ∈ items, ∀ d, e.start = .date d → midnightUtc d ≤ dayStart) →
        (∀ e ∈ items, ∀ t, e.start = .dateTime t → dayStart ≤ t) →
        allDayFirst (get_today_events items)) := by
  intro h
  have hconc := h (fun _ => 0) 0
    [⟨"t1", "Timed at local midnight", .dateTime 0, ""⟩,
     ⟨"a1", "All-day", .date 0, ""⟩]
    (by simp [startKey])
    (by
      intro e he d hd
      simp [startKey])
    (by
      intro e he t ht
      fin_cases he <;> simp_all)
  simp [allDayFirst, get_today_events, formatEvent, FEvent.isAllDay] at hconc

/-- Claim C7 (amended): provided the upstream list is sorted ascending by
the orderBy='startTime' key (all-day events keyed at the local midnight of
their date), every all-day event's key is at most the day start, and every
timed event is strictly after the day start (i.e. no timed task at exactly
local midnight), the returned list has all all-day tasks before all timed
tasks and the timed tasks in ascending order of due time. -/
theorem allday_first_sorted_strict (midnightUtc : Int → Int) (dayStart : Int)
    (items : List RawEvent)
    (hsorted : List.Chain'
      (fun a b => startKey midnightUtc a.start ≤ startKey midnightUtc b.start) items)
    (hallday : ∀ e ∈ items, ∀ d, e.start = .date d → midnightUtc d ≤ dayStart)
    (htimed : ∀ e ∈ items, ∀ t, e.start = .dateTime t → dayStart < t) :
    allDayFirst (get_today_events items) ∧ timedAscending (get_today_events items) := by
  haveI : IsTrans RawEvent
      (fun a b => startKey midnightUtc a.start ≤ startKey midnightUtc b.start) :=
    ⟨fun _ _ _ h1 h2 => le_trans h1 h2⟩
  have hpw : List.Pairwise
      (fun a b => startKey midnightUtc a.start ≤ startKey midnightUtc b.start) items :=
    List.chain'_iff_pairwise.mp hsorted
  have hpw' := List.Pairwise.and_mem.mp hpw
  constructor
  · rw [allDayFirst, get_today_events, List.pairwise_map]
    refine hpw'.imp ?_
    rintro a b ⟨ha, hb, hkey⟩ ⟨hta, htb⟩
    cases hsa : a.start with
    | date d => simp [formatEvent, FEvent.isAllDay, hsa] at hta
    | dateTime ta =>
      cases hsb : b.start with
      | dateTime tb => simp [formatEvent, FEvent.isAllDay, hsb] at htb
      | date db =>
        have h1 := htimed a ha ta hsa
        have h2 := hallday b hb db hsb
        rw [hsa, hsb] at hkey
        simp [startKey] at hkey
        omega
  · rw [timedAscending, get_today_events, List.pairwise_map]
    refine hpw'.imp ?_
    rintro a b ⟨_, _, hkey⟩ ta tb hta htb
    have hsa : a.start = .dateTime ta := hta
    have hsb : b.start = .dateTime tb := htb
    rw [hsa, hsb] at hkey
    simpa [startKey] using hkey

/-- Claim C7 witness: a concrete sorted day with one all-day and two timed
events strictly after midnight is returned all-day-first, timed ascending. -/
theorem allday_first_sorted_strict_witness :
    allDayFirst (get_today_events
      [⟨"a1", "All-day", .date 0, ""⟩,
       ⟨"t1", "Morning", .dateTime 540, ""⟩,
       ⟨"t2", "Evening", .dateTime 1200, ""⟩]) ∧
    timedAscending (get_today_events
      [⟨"a1", "All-day", .date 0, ""⟩,
       ⟨"t1", "Morning", .dateTime 540, ""⟩,
       ⟨"t2", "Evening", .dateTime 1200, ""⟩]) := by
  exact allday_first_sorted_strict (fun _ => 0) 0
    [⟨"a1", "All-day", .date 0, ""⟩,
     ⟨"t1", "Morning", .dateTime 540, ""⟩,
     ⟨"t2", "Evening", .dateTime 1200, ""⟩]
    (by simp [startKey])
    (by intro e he d hd; fin_cases he <;> simp_all)
    (by intro e he t ht; fin_cases he <;> simp_all <;> omega)

/-- Claim C1: whenever the input text contains a syntactically present
numeric date or time token whose components are out of range or
calendar-impossible, the extractor raises InvalidDateTime instead of
returning a no-match or a best-guess instant. -/
theorem invalid_numeric_raises (text : String) (tzOff nowUtc : Int)
    (h : ∃ s ∈ tokenize text,
        invalidTemporalToken (yearOfLocal (nowUtc + tzOff)) (classify s) = true) :
    parse_task_input text tzOff nowUtc = .error .invalidDateTime := by
  obtain ⟨s, hs, hinv⟩ := h
  have hany : ((tokenize text).map (fun s => (s, classify s))).any
      (fun p => invalidTemporalToken (yearOfLocal (nowUtc + tzOff)) p.2) = true :=
    List.any_eq_true.mpr ⟨(s, classify s), List.mem_map_of_mem _ hs, hinv⟩
  unfold parse_task_input parseTokens
  simp only [hany]
  rfl

/-- Claim C1 witness: "32.08 14:00" (day 32) and "14:99" (minute 99) both
raise InvalidDateTime (now = 2025-06-15 12:00 UTC, UTC chat). -/
theorem invalid_numeric_raises_witness :
    (∃ s ∈ tokenize "32.08 14:00",
        invalidTemporalToken (yearOfLocal (29166480 + 0)) (classify s) = true) ∧
    parse_task_input "32.08 14:00" 0 29166480 = .error .invalidDateTime ∧
    parse_task_input "14:99" 0 29166480 = .error .invalidDateTime := by
  refine ⟨by decide, ?_, ?_⟩
  · exact invalid_numeric_raises "32.08 14:00" 0 29166480 (by decide)
  · exact invalid_numeric_raises "14:99" 0 29166480 (by decide)

theorem parse_lone_time_eq (text : String) (s : List Char) (hh mi : Nat)
    (tzOff nowUtc : Int)
    (htok : tokenize text = [s]) (hcls : classify s = .time hh mi)
    (hval : validTime hh mi = true) :
    parse_task_input text tzOff nowUtc =
      .ok (.ok ⟨(if nowUtc + tzOff <
                   (nowUtc + tzOff).ediv 1440 * 1440 + hh * 60 + mi
                 then (nowUtc + tzOff).ediv 1440 * 1440 + hh * 60 + mi
                 else (nowUtc + tzOff).ediv 1440 * 1440 + hh * 60 + mi + 1440) - tzOff,
                "untitled", false⟩) := by
  unfold parse_task_input
  rw [htok]
  simp only [List.map_cons, List.map_nil, hcls]
  unfold parseTokens
  simp [invalidTemporalToken, hval, scan1, scan2, isDateTok, isTimeTok,
    strategy3, resolveDatePath, joinResidual, stripConnectives, connectives]

theorem parse_lone_date_eq (text : String) (s : List Char) (d mo : Nat)
    (tzOff nowUtc : Int)
    (htok : tokenize text = [s]) (hcls : classify s = .date d mo none)
    (hval : validDate (yearOfLocal (nowUtc + tzOff)) d mo = true) :
    parse_task_input text tzOff nowUtc =
      .ok (.ok ⟨(if civilMinutes (yearOfLocal (nowUtc + tzOff)) mo d 23 59 <
                   nowUtc + tzOff - 1
                 then civilMinutes (yearOfLocal (nowUtc + tzOff) + 1) mo d 23 59
                 else civilMinutes (yearOfLocal (nowUtc + tzOff)) mo d 23 59) - tzOff,
                "untitled", true⟩) := by
  unfold parse_task_input
  rw [htok]
  simp only [List.map_cons, List.map_nil, hcls]
  unfold parseTokens
  simp [invalidTemporalToken, hval, scan1, scan2, isDateTok, isTimeTok,
    strategy3, resolveDatePath, joinResidual, stripConnectives, connectives]

/-- Claim C4: with the year omitted the resolved instant uses the current
year, and an instant more than one minute in the past rolls forward by
exactly one year on the date-bearing path (one day on the bare-time path),
never more than one unit. -/
theorem year_rollforward_one_unit :
    (∀ (text : String) (s : List Char) (d mo : Nat) (tzOff nowUtc : Int),
        tokenize text = [s] → classify s = .date d mo none →
        validDate (yearOfLocal (nowUtc + tzOff)) d mo = true →
        civilMinutes (yearOfLocal (nowUtc + tzOff)) mo d 23 59 < nowUtc + tzOff - 1 →
        parse_task_input text tzOff nowUtc =
          .ok (.ok ⟨civilMinutes (yearOfLocal (nowUtc + tzOff) + 1) mo d 23 59 - tzOff,
                    "untitled", true⟩)) ∧
    (∀ (text : String) (s : List Char) (d mo : Nat) (tzOff nowUtc : Int),
        tokenize text = [s] → classify s = .date d mo none →
        validDate (yearOfLocal (nowUtc + tzOff)) d mo = true →
        ¬ (civilMinutes (yearOfLocal (nowUtc + tzOff)) mo d 23 59 < nowUtc + tzOff - 1) →
        parse_task_input text tzOff nowUtc =
          .ok (.ok ⟨civilMinutes (yearOfLocal (nowUtc + tzOff)) mo d 23 59 - tzOff,
                    "untitled", true⟩)) ∧
    (∀ (text : String) (s : List Char) (hh mi : Nat) (tzOff nowUtc : Int),
        tokenize text = [s] → classify s = .time hh mi →
        validTime hh mi = true →
        (nowUtc + tzOff).ediv 1440 * 1440 + hh * 60 + mi < nowUtc + tzOff - 1 →
        parse_task_input text tzOff nowUtc =
          .ok (.ok ⟨(nowUtc + tzOff).ediv 1440 * 1440 + hh * 60 + mi + 1440 - tzOff,
                    "untitled", false⟩)) := by
  refine ⟨?_, ?_, ?_⟩
  · intro text s d mo tzOff nowUtc htok hcls hval hpast
    rw [parse_lone_date_eq text s d mo tzOff nowUtc htok hcls hval, if_pos hpast]
  · intro text s d mo tzOff nowUtc htok hcls hval hpast
    rw [parse_lone_date_eq text s d mo tzOff nowUtc htok hcls hval, if_neg hpast]
  · intro text s hh mi tzOff nowUtc htok hcls hval hpast
    rw [parse_lone_time_eq text s hh mi tzOff nowUtc htok hcls hval,
      if_neg (by omega)]

/-- Claim C4 witness: parsing "01.01" when now is 2025-06-15 12:00 UTC
(UTC chat) resolves to 2026-01-01 23:59, i.e. next year's Jan 1; and a
bare "09:00" seen at 12:00 rolls exactly one day. -/
theorem year_rollforward_one_unit_witness :
    parse_task_input "01.01" 0 29166480 =
      .ok (.ok ⟨civilMinutes (yearOfLocal (29166480 + 0) + 1) 1 1 23 59 - 0,
                "untitled", true⟩) ∧
    yearOfLocal (29166480 + 0) = 2025 ∧
    civilMinutes (2025 + 1) 1 1 23 59 = 29455199 ∧
    parse_task_input "03:00" 0 29166480 =
      .ok (.ok ⟨((29166480 : Int) + 0).ediv 1440 * 1440 + 3 * 60 + 0 + 1440 - 0,
                "untitled", false⟩) := by
  refine ⟨?_, by decide, by decide, ?_⟩
  · exact year_rollforward_one_unit.1 "01.01" "01.01".data 1 1 0 29166480
      (by decide) (by decide) (by decide) (by decide)
  · exact year_rollforward_one_unit.2.2 "03:00" "03:00".data 3 0 0 29166480
      (by decide) (by decide) (by decide) (by decide)

/-- Claim C5: a lone HH:MM time resolves to today's HH:MM in chat-local
time when that instant has not yet passed and to the same HH:MM tomorrow
otherwise, and is classified as not all-day. -/
theorem lone_time_today_else_tomorrow (text : String) (s : List Char)
    (hh mi : Nat) (tzOff nowUtc : Int)
    (htok : tokenize text = [s]) (hcls : classify s = .time hh mi)
    (hval : validTime hh mi = true) :
    (nowUtc + tzOff < (nowUtc + tzOff).ediv 1440 * 1440 + hh * 60 + mi →
      parse_task_input text tzOff nowUtc =
        .ok (.ok ⟨(nowUtc + tzOff).ediv 1440 * 1440 + hh * 60 + mi - tzOff,
                  "untitled", false⟩)) ∧
    ((nowUtc + tzOff).ediv 1440 * 1440 + hh * 60 + mi ≤ nowUtc + tzOff →
      parse_task_input text tzOff nowUtc =
        .ok (.ok ⟨(nowUtc + tzOff).ediv 1440 * 1440 + hh * 60 + mi + 1440 - tzOff,
                  "untitled", false⟩)) := by
  constructor
  · intro hfuture
    rw [parse_lone_time_eq text s hh mi tzOff nowUtc htok hcls hval, if_pos hfuture]
  · intro hpassed
    rw [parse_lone_time_eq text s hh mi tzOff nowUtc htok hcls hval,
      if_neg (by omega)]

/-- Claim C5 witness: at 2025-06-15 12:00 local, "14:30" resolves to today
14:30 and "09:00" to tomorrow 09:00, both timed. -/
theorem lone_time_today_else_tomorrow_witness :
    parse_task_input "14:30" 0 29166480 = .ok (.ok ⟨29166630, "untitled", false⟩) ∧
    parse_task_input "09:00" 0 29166480 = .ok (.ok ⟨29167740, "untitled", false⟩) := by
  constructor
  · have := (lone_time_today_else_tomorrow "14:30" "14:30".data 14 30 0 29166480
      (by decide) (by decide) (by decide)).1 (by decide)
    simpa using this
  · have := (lone_time_today_else_tomorrow "09:00" "09:00".data 9 0 0 29166480
      (by decide) (by decide) (by decide)).2 (by decide)
    simpa using this

theorem civilMinutes_2359_emod (y : Int) (mo d : Nat) :
    civilMinutes y mo d 23 59 % 1440 = 1439 := by
  unfold civilMinutes
  omega

theorem scan1_none_of_no_time :
    ∀ (l : List (List Char × Token)), (∀ p ∈ l, isTimeTok p.2 = false) →
    scan1 l = none := by
  intro l
  induction l with
  | nil => intro _; rfl
  | cons p rest ih =>
    intro h
    cases rest with
    | nil => rfl
    | cons q rest2 =>
      have hp := h p (List.mem_cons_self _ _)
      have hq := h q (List.mem_cons_of_mem _ (List.mem_cons_self _ _))
      have ih' : scan1 (q :: rest2) = none :=
        ih (fun x hx => h x (List.mem_cons_of_mem _ hx))
      obtain ⟨ps, pt⟩ := p
      obtain ⟨qs, qt⟩ := q
      cases pt <;> cases qt <;> simp_all [scan1, isTimeTok]

theorem resolveDatePath_2359_emod (curYear nowLocal : Int) (mo d : Nat) :
    resolveDatePath curYear nowLocal (fun y => civilMinutes y mo d 23 59) % 1440 =
      1439 := by
  simp only [resolveDatePath]
  split
  · exact civilMinutes_2359_emod (curYear + 1) mo d
  · exact civilMinutes_2359_emod curYear mo d

/-- Claim C6: an input with a date but no clock component that parses
successfully yields an all-day task whose due instant is pinned to 23:59
of the resolved local date. -/
theorem date_without_clock_all_day (text : String) (tzOff nowUtc : Int)
    (t : ParsedTask)
    (hnotime : ∀ s ∈ tokenize text, isTimeTok (classify s) = false)
    (hok : parse_task_input text tzOff nowUtc = .ok (.ok t)) :
    t.allDay = true ∧ (t.dueUtc + tzOff) % 1440 = 1439 := by
  unfold parse_task_input parseTokens at hok
  set toks := (tokenize text).map (fun s => (s, classify s)) with htoks
  have hnt : ∀ p ∈ toks, isTimeTok p.2 = false := by
    intro p hp
    rw [htoks] at hp
    obtain ⟨s, hs, rfl⟩ := List.mem_map.mp hp
    exact hnotime s hs
  have hTF : toks.filter (fun p => isTimeTok p.2) = [] :=
    List.filter_eq_nil_iff.mpr (fun p hp => by simp [hnt p hp])
  by_cases hinv :
      (toks.any fun p => invalidTemporalToken (yearOfLocal (nowUtc + tzOff)) p.2) = true
  · simp only [hinv, if_true] at hok
    exact absurd hok (by simp)
  · rw [Bool.not_eq_true] at hinv
    simp only [hinv, Bool.false_eq_true, if_false,
      scan1_none_of_no_time toks hnt] at hok
    cases hscan2 : scan2 toks with
    | some r =>
      obtain ⟨⟨d, mo⟩, res⟩ := r
      rw [hscan2] at hok
      simp only [strategy2Result] at hok
      split at hok
      · exact absurd hok (by simp)
      · simp only [Except.ok.injEq, ParseResult.ok.injEq] at hok
        subst hok
        refine ⟨rfl, ?_⟩
        have := resolveDatePath_2359_emod (yearOfLocal (nowUtc + tzOff))
          (nowUtc + tzOff) mo d
        simp only
        omega
    | none =>
      rw [hscan2] at hok
      simp only [hTF] at hok
      cases hdf : toks.filter (fun p => isDateTok p.2) with
      | nil =>
        rw [hdf] at hok
        simp [strategy3] at hok
      | cons p ps =>
        have hpd : isDateTok p.2 = true := by
          have hmem : p ∈ toks.filter (fun p => isDateTok p.2) := by
            rw [hdf]; exact List.mem_cons_self _ _
          exact (List.mem_filter.mp hmem).2
        cases ps with
        | nil =>
          obtain ⟨ps1, pt⟩ := p
          cases pt with
          | date d mo yr =>
            rw [hdf] at hok
            simp only [strategy3] at hok
            simp only [Except.ok.injEq, ParseResult.ok.injEq] at hok
            subst hok
            refine ⟨rfl, ?_⟩
            cases yr with
            | some y =>
              have := civilMinutes_2359_emod y mo d
              simp only
              omega
            | none =>
              have := resolveDatePath_2359_emod (yearOfLocal (nowUtc + tzOff))
                (nowUtc + tzOff) mo d
              simp only
              omega
          | time hh mi => simp [isDateTok] at hpd
          | num n => simp [isDateTok] at hpd
          | word w => simp [isDateTok] at hpd
        | cons q qs =>
          rw [hdf] at hok
          simp [strategy3] at hok

/-- Claim C6 witness: "15 сентября доклад" (date-only, Russian) at
2025-06-15 12:00 UTC parses to all_day = true, local Sept 15 23:59,
residual "доклад". -/
theorem date_without_clock_all_day_witness :
    parse_task_input "15 сентября доклад" 0 29166480 =
      .ok (.ok ⟨29299679, "доклад", true⟩) ∧
    (⟨29299679, "доклад", true⟩ : ParsedTask).allDay = true ∧
    ((29299679 : Int) + 0) % 1440 = 1439 ∧
    civilMinutes 2025 9 15 23 59 = 29299679 := by
  have hparse : parse_task_input "15 сентября доклад" 0 29166480 =
      .ok (.ok ⟨29299679, "доклад", true⟩) := by rfl
  have := date_without_clock_all_day "15 сентября доклад" 0 29166480
    ⟨29299679, "доклад", true⟩ (by decide) hparse
  exact ⟨hparse, this.1, this.2, by decide⟩

end Tracker
